import Mathlib

/-!
Verification development for the ephemeral-chat repository.

The TypeScript sources are shallowly embedded:
* strings are `List Char` (`Str`);
* the clock (`Date.now()`) and every random draw (`WordArray.random`,
  `Math.random`, `crypto.randomUUID`, elliptic key generation) are explicit
  parameters;
* the in-memory `Map`/`Set` stores are association lists / duplicate-free
  lists with JS `Map.set` / `Map.delete` / `Set.add` semantics;
* third-party cryptographic primitives (CryptoJS AES, HMAC-SHA256, the
  `elliptic` P-256 arithmetic), which are not part of this repository, are
  modelled as abstract keyed functions that keep exactly the interface
  properties the repository code relies on (determinism, invertibility of the
  cipher under the same key/IV, hex output alphabets, tag truncation);
  everything written in the repository itself (wire formats, format sniffing,
  fallback control flow, counters, session bookkeeping) is translated
  faithfully, branch by branch.
-/

/-- Strings of the embedding: JS strings as lists of characters. -/
abbrev Str := List Char

/-- The character `\x7b` (left curly brace). -/
def lbrace : Char := Char.ofNat 123

/-- The character `\x7d` (right curly brace). -/
def rbrace : Char := Char.ofNat 125

/-- The double-quote character. -/
def dquote : Char := Char.ofNat 34

/-- The single-quote character. -/
def squote : Char := Char.ofNat 39

/-- The backslash character. -/
def bslash : Char := Char.ofNat 92

/-- Injective encoding of a string into a natural number (used to model the
byte content a cipher transports). -/
def strToNat : Str → Nat
  | [] => 0
  | c :: cs => Nat.pair c.toNat (strToNat cs) + 1

/-- Inverse of `strToNat`. -/
def natToStr : Nat → Str
  | 0 => []
  | n + 1 => Char.ofNat (Nat.unpair n).1 :: natToStr (Nat.unpair n).2
decreasing_by exact Nat.lt_succ_of_le (Nat.unpair_right_le n)

/-- Lower-case hex digit for a value `< 16`, as CryptoJS `toString()` emits. -/
def hexChar (d : Nat) : Char :=
  if d < 10 then Char.ofNat (48 + d) else Char.ofNat (87 + d)

/-- Value of a lower-case hex digit character. -/
def hexVal? (c : Char) : Option Nat :=
  if 48 ≤ c.toNat ∧ c.toNat ≤ 57 then some (c.toNat - 48)
  else if 97 ≤ c.toNat ∧ c.toNat ≤ 102 then some (c.toNat - 87)
  else none

/-- Hex rendering of a natural number, most significant digit first
(empty for `0`; callers only render positive numbers). -/
def natToHexStr (n : Nat) : Str :=
  ((Nat.digits 16 n).map hexChar).reverse

/-- Hex rendering padded with leading zeros to `len` digits, as the fixed-width
output of a hash function. -/
def natToHexFixed (len n : Nat) : Str :=
  let ds := (Nat.digits 16 n).map hexChar
  (ds ++ List.replicate (len - ds.length) (hexChar 0)).reverse

/-- Collect a list of optional values, failing if any is `none`. -/
def seqOption {α : Type} : List (Option α) → Option (List α)
  | [] => some []
  | none :: _ => none
  | some a :: os => (seqOption os).map fun as => a :: as

/-- Parse a hex string back to a natural number. -/
def hexToNat? (s : Str) : Option Nat :=
  (seqOption (s.map hexVal?)).map fun ds => Nat.ofDigits 16 ds.reverse

/-- Abstract absorbing hash on strings: stands in for the compression
behaviour of SHA-256 inside the models below.  Always at least `7`. -/
def hashNat (s : Str) : Nat :=
  s.foldl (fun a c => a * 131 + c.toNat + 1) 7

/-- Model of `CryptoJS.HmacSHA256(message, key).toString()`: a deterministic
keyed function of the message producing 64 lower-case hex characters.
(`WordArray` values are modelled throughout by their canonical hex rendering,
so `CryptoJS.enc.Hex.parse` is the identity embedding.) -/
def hmacSHA256 (message key : Str) : Str :=
  natToHexFixed 64 (hashNat (key ++ message) % 16 ^ 64)

/-- Keystream/mask an idealized cipher derives from a mode tag, a key and an
IV/nonce; always positive, so ciphertexts are never the empty string. -/
def cipherMask (tag key iv : Str) : Nat :=
  hashNat (tag ++ key ++ iv) + 1

/-- Model of `CryptoJS.AES.encrypt(message, key, {iv, mode: CBC, padding:
Pkcs7}).toString()`: an abstract keyed invertible transformation.  The real
call renders the ciphertext in base64; the model renders it in hex — both
alphabets are free of `:` and of JSON syntax characters, which is all the
repository code depends on. -/
def aesCbcEncrypt (key iv message : Str) : Str :=
  natToHexStr (strToNat message + cipherMask ("CBC").toList key iv)

/-- Model of CBC decryption followed by `.toString(CryptoJS.enc.Utf8)`:
`none` models the `Malformed UTF-8 data` throw on ciphertext bytes that do not
decrypt to valid UTF-8 under the given key/IV. -/
def aesCbcDecrypt? (key iv ct : Str) : Option Str :=
  match hexToNat? ct with
  | none => none
  | some n =>
    if cipherMask ("CBC").toList key iv ≤ n then
      some (natToStr (n - cipherMask ("CBC").toList key iv))
    else none

/-- Model of `CryptoJS.AES.encrypt(message, key, {iv: nonce, mode: CTR,
padding: NoPadding}).toString()`, same abstraction as `aesCbcEncrypt`. -/
def aesCtrEncrypt (key nonce message : Str) : Str :=
  natToHexStr (strToNat message + cipherMask ("CTR").toList key nonce)

/-- Model of CTR decryption followed by UTF-8 decoding, as `aesCbcDecrypt?`. -/
def aesCtrDecrypt? (key nonce ct : Str) : Option Str :=
  match hexToNat? ct with
  | none => none
  | some n =>
    if cipherMask ("CTR").toList key nonce ≤ n then
      some (natToStr (n - cipherMask ("CTR").toList key nonce))
    else none

/-- Model of `CryptoJS.lib.WordArray.random(len/2).toString()`: `len` hex
characters drawn from the explicit random seed. -/
def randomHex (len seed : Nat) : Str :=
  (List.range len).map fun i => hexChar (seed / 16 ^ i % 16)

/-- Decimal rendering of a natural number (JS `Number.prototype.toString`). -/
def natToDecStr (n : Nat) : Str :=
  ((Nat.digits 10 n).map fun d => Char.ofNat (48 + d)).reverse

/-- JSON string escaping as `JSON.stringify` applies to the string values the
encryptor serializes (quote and backslash; the payloads at issue contain no
control characters). -/
def jsonEscapeChar (c : Char) : Str :=
  if c = dquote ∨ c = bslash then [bslash, c] else [c]

/-- Escape a whole string value. -/
def jsonEscape (s : Str) : Str :=
  s.flatMap jsonEscapeChar

/-- Parse the body of a JSON string literal up to its closing quote, undoing
`jsonEscape`; returns the decoded value and the remaining input. -/
def parseStringBody : Str → Option (Str × Str)
  | [] => none
  | c :: rest =>
    if c = dquote then some ([], rest)
    else if c = bslash then
      match rest with
      | [] => none
      | e :: rest2 =>
        if e = dquote ∨ e = bslash then
          (parseStringBody rest2).map fun p => (e :: p.1, p.2)
        else none
    else (parseStringBody rest).map fun p => (c :: p.1, p.2)

/-- Strip an expected literal pattern from the front of the input. -/
def stripPat : Str → Str → Option Str
  | [], s => some s
  | _ :: _, [] => none
  | p :: ps, c :: cs => if c = p then stripPat ps cs else none

/-- The characters `"name":"` introducing the JSON field `name`. -/
def keyPat (name : String) : Str :=
  dquote :: name.toList ++ dquote :: ':' :: dquote :: []

/-- `JSON.stringify({nonce, ciphertext, authTag})` for string fields, exactly
as the current-format encryptor emits it. -/
def serializeCurrent (nonce ciphertext authTag : Str) : Str :=
  lbrace :: keyPat "nonce" ++ jsonEscape nonce ++
    dquote :: ',' :: keyPat "ciphertext" ++ jsonEscape ciphertext ++
    dquote :: ',' :: keyPat "authTag" ++ jsonEscape authTag ++
    dquote :: rbrace :: []

/-- Model of `JSON.parse` restricted to the object shape
`{nonce, ciphertext, authTag}` that `decryptMessage` looks for: succeeds on
the canonical serialization and fails on every input considered in this
development that `JSON.parse` rejects or that lacks the three fields (in
particular on every legacy `iv:ct:hmac` payload, which is not valid JSON). -/
def parseCurrentFormat (s : Str) : Option (Str × Str × Str) := do
  let s ← stripPat (lbrace :: keyPat "nonce") s
  let (n, s) ← parseStringBody s
  let s ← stripPat (',' :: keyPat "ciphertext") s
  let (c, s) ← parseStringBody s
  let s ← stripPat (',' :: keyPat "authTag") s
  let (t, s) ← parseStringBody s
  match s with
  | [r] => if r = rbrace then some (n, c, t) else none
  | _ => none

/-- `JSON.stringify({content, timestamp})`, the plaintext envelope the
current-format encryptor encrypts. -/
def serializeEnvelope (content timestamp : Str) : Str :=
  lbrace :: keyPat "content" ++ jsonEscape content ++
    dquote :: ',' :: keyPat "timestamp" ++ jsonEscape timestamp ++
    dquote :: rbrace :: []

/-- Model of `JSON.parse` restricted to the `{content, timestamp}` shape. -/
def parseEnvelope (s : Str) : Option (Str × Str) := do
  let s ← stripPat (lbrace :: keyPat "content") s
  let (content, s) ← parseStringBody s
  let s ← stripPat (',' :: keyPat "timestamp") s
  let (timestamp, s) ← parseStringBody s
  match s with
  | [r] => if r = rbrace then some (content, timestamp) else none
  | _ => none

/-- JS `String.prototype.split(":")`. -/
def splitOnColon : Str → List Str
  | [] => [[]]
  | c :: rest =>
    if c = ':' then [] :: splitOnColon rest
    else
      match splitOnColon rest with
      | [] => [[c]]
      | p :: ps => (c :: p) :: ps

/-- Embeds `encryptMessage` (src/src/utils/encryption.ts, lines 120-207) with
the format flag explicit.  The source pins `useLegacyFormat = true`; `false`
selects the current-format branch of the same `if`.  `rnd` models the random
IV/nonce draw and `nowMs` the `Date.now()` timestamp. -/
def encryptMessageWith (useLegacyFormat : Bool) (message key : Str)
    (rnd nowMs : Nat) : Str :=
  if useLegacyFormat then
    let iv := randomHex 32 rnd
    let encrypted := aesCbcEncrypt key iv message
    let signature := hmacSHA256 message key
    iv ++ ':' :: encrypted ++ ':' :: signature
  else
    let nonce := randomHex 24 rnd
    let timestamp := natToDecStr nowMs
    let messageWithTimestamp := serializeEnvelope message timestamp
    let encrypted := aesCtrEncrypt key nonce messageWithTimestamp
    let authTag := (hmacSHA256 (nonce ++ encrypted) key).take 32
    serializeCurrent nonce encrypted authTag

/-- `encryptMessage` as deployed: the source forces the legacy branch. -/
def encryptMessage (message key : Str) (rnd nowMs : Nat) : Str :=
  encryptMessageWith true message key rnd nowMs

/-- Error a failed decryption surfaces after UTF-8 decoding fails. -/
def utf8FailMsg : Str :=
  ("Failed to decrypt message: Malformed UTF-8 data").toList

/-- Error for inputs that match neither wire shape. -/
def formatFailMsg : Str :=
  ("Failed to decrypt message: Invalid message format - neither new nor legacy format").toList

/-- The authentication failure `decryptMessage` constructs on an auth-tag
mismatch (and, in the source, immediately loses to its own catch block). -/
def authFailMsg : Str :=
  ("Failed to decrypt message: Message authentication failed - possible tampering detected").toList

/-- Embeds the legacy branch of `decryptMessage` (encryption.ts lines
310-358): split on `:`, require at least IV and ciphertext, CBC-decrypt.
The source also recomputes the HMAC when a third part is present but only
logs a mismatch warning and returns the plaintext regardless, so that check
has no effect on the result and is omitted. -/
def legacyDecrypt (encryptedMessage key : Str) : Except Str Str :=
  match splitOnColon encryptedMessage with
  | ivStr :: encryptedStr :: _ =>
    match aesCbcDecrypt? key ivStr encryptedStr with
    | some decryptedStr => Except.ok decryptedStr
    | none => Except.error utf8FailMsg
  | _ => Except.error formatFailMsg

/-- Embeds `decryptMessage` (encryption.ts lines 216-364).  Faithful to the
source's control flow: the whole current-format branch lives inside
`try { JSON.parse ... } catch (jsonError) { ... }`, so every throw raised in
it — including the explicit authentication-failure throw and a UTF-8 failure
of the decrypted bytes — is caught by that catch block and control falls
through to the legacy branch.  The embedded-timestamp freshness check only
logs a warning in the source and is omitted; a failed `JSON.parse` of the
decrypted envelope returns the raw decrypted string (source line 302). -/
def decryptMessage (encryptedMessage key : Str) : Except Str Str :=
  match parseCurrentFormat encryptedMessage with
  | some (nonce, ciphertext, authTag) =>
    if nonce ≠ [] ∧ ciphertext ≠ [] ∧ authTag ≠ [] then
      let expectedAuthTag := (hmacSHA256 (nonce ++ ciphertext) key).take 32
      if expectedAuthTag = authTag then
        match aesCtrDecrypt? key nonce ciphertext with
        | some decryptedStr =>
          match parseEnvelope decryptedStr with
          | some (content, _timestamp) => Except.ok content
          | none => Except.ok decryptedStr
        | none => legacyDecrypt encryptedMessage key
      else
        legacyDecrypt encryptedMessage key
    else legacyDecrypt encryptedMessage key
  | none => legacyDecrypt encryptedMessage key

/-- The order of the NIST P-256 group used by `new elliptic.ec("p256")`.  The
group is cyclic of this prime order, so it is modelled as `ZMod p256Order`
with scalar action by multiplication. -/
def p256Order : Nat :=
  115792089210356248762697446949407573529996955224135760342422259061068512044369

/-- Scalars of the modelled P-256 group. -/
abbrev P256 := ZMod p256Order

/-- The fixed base point `G`, as an element of the cyclic group model. -/
def basePoint : P256 := 1

/-- Key pairs as `generateKeyPair` (encryption.ts lines 11-31) returns them:
a random scalar and the corresponding public point `priv * G`. -/
structure ECKeyPair where
  privateKey : P256
  publicKey : P256
deriving DecidableEq

/-- Embeds `generateKeyPair` with the random scalar draw explicit. -/
def generateKeyPair (rnd : Nat) : ECKeyPair :=
  let priv : P256 := (rnd : P256)
  { privateKey := priv, publicKey := priv * basePoint }

/-- The HKDF salt baked into `deriveKeyHKDF`. -/
def hkdfSalt : Str := ("ephemeral-chat-salt").toList

/-- Embeds `deriveKeyHKDF` (encryption.ts lines 75-111) at its default output
length of 32 bytes: extract is `HmacSHA256(inputKey, salt)`; the expand loop
needs exactly one iteration because each HMAC block already supplies 32
bytes, so the output is `HmacSHA256(T0 ++ info ++ chr 1, prk)` truncated to
32 bytes (the whole block) with `T0` empty. -/
def deriveKeyHKDF (inputKey info : Str) : Str :=
  let prk := hmacSHA256 inputKey hkdfSalt
  hmacSHA256 (info ++ [Char.ofNat 1]) prk

/-- Embeds `deriveSharedSecret` (encryption.ts lines 39-65): ECDH multiply,
render the shared point in hex, then HKDF with the `AES-256-GCM` label. -/
def deriveSharedSecret (myPrivateKey theirPublicKey : P256) : Str :=
  let sharedSecretHex := natToHexStr (myPrivateKey * theirPublicKey).val
  deriveKeyHKDF sharedSecretHex ("AES-256-GCM").toList

/-- Per-connection record (rateLimiter.ts lines 3-11). -/
structure RateLimitInfo where
  count : Nat
  lastReset : Nat
  blocked : Bool
  blockUntil : Nat
  violations : Nat
  lastViolation : Nat
  ipAddress : Option String
deriving DecidableEq, Repr

/-- Per-address record (rateLimiter.ts lines 17-26); `socketIds` is a JS
`Set`, kept duplicate-free in insertion order. -/
structure IpRateLimitInfo where
  count : Nat
  lastReset : Nat
  blocked : Bool
  blockUntil : Nat
  socketIds : List String
deriving DecidableEq, Repr

/-- The two module-level maps of the rate limiter. -/
structure RLState where
  rateLimits : List (String × RateLimitInfo)
  ipRateLimits : List (String × IpRateLimitInfo)
deriving DecidableEq, Repr

/-- JS `Map.set`: update an existing key in place or append a new binding. -/
def setKey {β : Type} : List (String × β) → String → β → List (String × β)
  | [], k, v => [(k, v)]
  | (k', v') :: t, k, v =>
    if k' = k then (k, v) :: t else (k', v') :: setKey t k v

/-- JS `Map.delete`: remove the binding for a key. -/
def eraseKey {β : Type} : List (String × β) → String → List (String × β)
  | [], _ => []
  | (k', v') :: t, k => if k' = k then t else (k', v') :: eraseKey t k

/-- JS `Set.add`. -/
def addToSet (l : List String) (x : String) : List String :=
  if x ∈ l then l else l ++ [x]

def RATE_LIMIT_WINDOW : Nat := 60 * 1000
def MAX_REQUESTS_PER_WINDOW : Nat := 100
def MAX_REQUESTS_PER_WINDOW_IP : Nat := 300
def BLOCK_DURATION_INITIAL : Nat := 5 * 60 * 1000
def BLOCK_DURATION_SECOND : Nat := 15 * 60 * 1000
def BLOCK_DURATION_THIRD : Nat := 60 * 60 * 1000
def BLOCK_DURATION_MAX : Nat := 24 * 60 * 60 * 1000
def VIOLATION_EXPIRY : Nat := 24 * 60 * 60 * 1000

/-- One iteration of the loop of rateLimiter.ts lines 117-124: if the socket
has a record, mark it blocked with the shared expiry and one more violation. -/
def blockOneSocket (blockUntil : Nat) (m : List (String × RateLimitInfo))
    (id : String) : List (String × RateLimitInfo) :=
  match m.lookup id with
  | some r =>
    setKey m id
      { r with blocked := true, blockUntil := blockUntil,
               violations := r.violations + 1 }
  | none => m

/-- The loop of rateLimiter.ts lines 117-124: block every socket of an
address that has a record, stamping the shared expiry and one violation. -/
def blockAllSockets (rl : List (String × RateLimitInfo)) (ids : List String)
    (blockUntil : Nat) : List (String × RateLimitInfo) :=
  ids.foldl (blockOneSocket blockUntil) rl

/-- The per-socket half of `checkRateLimit` (rateLimiter.ts lines 131-195),
entered with both maps already reflecting the IP-phase mutations and with the
caller's (possibly freshly created / IP-updated) record. -/
def socketPhase (rl : List (String × RateLimitInfo))
    (ipl : List (String × IpRateLimitInfo)) (socketId : String)
    (rateInfo : RateLimitInfo) (now : Nat) : Bool × RLState :=
  if rateInfo.blocked then
    if now > rateInfo.blockUntil then
      let rateInfo := { rateInfo with blocked := false, count := 1, lastReset := now }
      (true, ⟨setKey rl socketId rateInfo, ipl⟩)
    else
      (false, ⟨setKey rl socketId rateInfo, ipl⟩)
  else if now - rateInfo.lastReset > RATE_LIMIT_WINDOW then
    let rateInfo := { rateInfo with count := 1, lastReset := now }
    (true, ⟨setKey rl socketId rateInfo, ipl⟩)
  else
    let rateInfo := { rateInfo with count := rateInfo.count + 1 }
    if rateInfo.count > MAX_REQUESTS_PER_WINDOW then
      let rateInfo :=
        { rateInfo with violations := rateInfo.violations + 1, lastViolation := now }
      -- source lines 163-169: this reset can never fire, because
      -- `lastViolation` was just set to `now` on the line above
      let rateInfo :=
        if rateInfo.violations > 1 ∧ now - rateInfo.lastViolation > VIOLATION_EXPIRY then
          { rateInfo with violations := 1 }
        else rateInfo
      let blockDuration :=
        if rateInfo.violations = 2 then BLOCK_DURATION_SECOND
        else if rateInfo.violations = 3 then BLOCK_DURATION_THIRD
        else if rateInfo.violations > 3 then BLOCK_DURATION_MAX
        else BLOCK_DURATION_INITIAL
      let rateInfo := { rateInfo with blocked := true, blockUntil := now + blockDuration }
      let ipl :=
        match rateInfo.ipAddress with
        | some ip =>
          match ipl.lookup ip with
          | some ipInfo => setKey ipl ip { ipInfo with count := ipInfo.count + MAX_REQUESTS_PER_WINDOW_IP / 2 }
          | none => ipl
        | none => ipl
      (false, ⟨setKey rl socketId rateInfo, ipl⟩)
    else
      (true, ⟨setKey rl socketId rateInfo, ipl⟩)

/-- The IP window/ceiling part of `checkRateLimit` (rateLimiter.ts lines
102-129), entered after the IP-blocked check with the updated records. -/
def ipWindowPhase (st : RLState) (socketId ip : String)
    (rateInfo : RateLimitInfo) (ipInfo : IpRateLimitInfo) (now : Nat) :
    Bool × RLState :=
  if now - ipInfo.lastReset > RATE_LIMIT_WINDOW then
    let ipInfo := { ipInfo with count := 1, lastReset := now }
    socketPhase (setKey st.rateLimits socketId rateInfo)
      (setKey st.ipRateLimits ip ipInfo) socketId rateInfo now
  else
    let ipInfo := { ipInfo with count := ipInfo.count + 1 }
    if ipInfo.count > MAX_REQUESTS_PER_WINDOW_IP then
      let ipInfo := { ipInfo with blocked := true, blockUntil := now + BLOCK_DURATION_INITIAL }
      let rl := setKey st.rateLimits socketId rateInfo
      let rl := blockAllSockets rl ipInfo.socketIds ipInfo.blockUntil
      (false, ⟨rl, setKey st.ipRateLimits ip ipInfo⟩)
    else
      socketPhase (setKey st.rateLimits socketId rateInfo)
        (setKey st.ipRateLimits ip ipInfo) socketId rateInfo now

/-- Embeds `checkRateLimit` (rateLimiter.ts lines 48-196).  JS mutates the
record objects held by the maps in place; the embedding threads the updated
values and re-stores them, preserving the source's mutation order. -/
def checkRateLimit (st : RLState) (socketId : String) (ipAddress : Option String)
    (now : Nat) : Bool × RLState :=
  let rateInfo :=
    match st.rateLimits.lookup socketId with
    | some r => r
    | none =>
      { count := 0, lastReset := now, blocked := false, blockUntil := 0,
        violations := 0, lastViolation := 0, ipAddress := ipAddress }
  match ipAddress with
  | none => socketPhase st.rateLimits st.ipRateLimits socketId rateInfo now
  | some ip =>
    let rateInfo := { rateInfo with ipAddress := some ip }
    let ipInfo : IpRateLimitInfo :=
      match st.ipRateLimits.lookup ip with
      | none =>
        { count := 0, lastReset := now, blocked := false, blockUntil := 0,
          socketIds := [socketId] }
      | some info => { info with socketIds := addToSet info.socketIds socketId }
    if ipInfo.blocked then
      if now > ipInfo.blockUntil then
        let ipInfo := { ipInfo with blocked := false, count := 1, lastReset := now }
        ipWindowPhase st socketId ip rateInfo ipInfo now
      else
        let rateInfo := { rateInfo with blocked := true, blockUntil := ipInfo.blockUntil }
        (false, ⟨setKey st.rateLimits socketId rateInfo,
                 setKey st.ipRateLimits ip ipInfo⟩)
    else ipWindowPhase st socketId ip rateInfo ipInfo now

/-- Run `checkRateLimit` once per timestamp in the list, collecting results. -/
def runCalls (socketId : String) (ipAddress : Option String) :
    RLState → List Nat → List Bool × RLState
  | st, [] => ([], st)
  | st, t :: ts =>
    let r := checkRateLimit st socketId ipAddress t
    let rest := runCalls socketId ipAddress r.2 ts
    (r.1 :: rest.1, rest.2)

/-- Violation count a socket's record holds before a call (0 when the record
does not exist yet, matching the freshly created record). -/
def violationsBefore (st : RLState) (id : String) : Nat :=
  match st.rateLimits.lookup id with
  | some r => r.violations
  | none => 0

/-- Session record (sessionManager, `Session` interface). -/
structure Session where
  id : String
  code : String
  createdAt : Nat
  expiresAt : Nat
  creatorId : String
  participants : List (String × String)
  sessionKey : String
  lastActivity : Nat
  keyRotationTime : Option Nat
  previousKeys : List String
  maxParticipants : Nat
  isRevoked : Bool
deriving DecidableEq, Repr

/-- The two module-level maps of the session manager:
`activeSessions : code -> session` and `socketToSession : socketId -> code`. -/
structure SessionState where
  activeSessions : List (String × Session)
  socketToSession : List (String × String)
deriving DecidableEq, Repr

def SESSION_EXPIRY : Nat := 10 * 60 * 1000
def SESSION_IDLE_TIMEOUT : Nat := 5 * 60 * 1000
def KEY_ROTATION_INTERVAL : Nat := 15 * 60 * 1000
def MAX_PREVIOUS_KEYS : Nat := 3

/-- The adjective pool of `generateAnonymousName`. -/
def nameAdjectives : List String :=
  ["Happy", "Brave", "Clever", "Gentle", "Wise", "Swift", "Calm", "Bold",
   "Bright", "Kind"]

/-- The animal pool of `generateAnonymousName`. -/
def nameAnimals : List String :=
  ["Panda", "Tiger", "Eagle", "Dolphin", "Fox", "Wolf", "Owl", "Bear",
   "Lion", "Hawk"]

/-- Embeds `generateAnonymousName` with the two random draws taken from an
explicit seed. -/
def generateAnonymousName (rnd : Nat) : String :=
  nameAdjectives.getD (rnd / 10 % 10) "Happy" ++ nameAnimals.getD (rnd % 10) "Panda"

/-- Embeds `endSession` (sessionManager): drop every participant from the
connection index, then drop the session. -/
def endSession (st : SessionState) (code : String) : Bool × SessionState :=
  match st.activeSessions.lookup code with
  | none => (false, st)
  | some session =>
    let sts := session.participants.foldl (fun m p => eraseKey m p.1) st.socketToSession
    (true, ⟨eraseKey st.activeSessions code, sts⟩)

/-- Embeds `joinSession` (sessionManager): checks, in source order, unknown
code, expiry (evicting), revocation, idleness (evicting) and capacity, then
adds the participant under a fresh alias, indexes the connection and
refreshes `lastActivity`/`expiresAt`. -/
def joinSession (st : SessionState) (socketId code : String) (now rnd : Nat) :
    Option Session × SessionState :=
  match st.activeSessions.lookup code with
  | none => (none, st)
  | some session =>
    if now > session.expiresAt then (none, (endSession st session.code).2)
    else if session.isRevoked then (none, st)
    else if now - session.lastActivity > SESSION_IDLE_TIMEOUT then
      (none, (endSession st code).2)
    else if session.participants.length ≥ session.maxParticipants then (none, st)
    else
      let anonymousName := generateAnonymousName rnd
      let session := { session with
        participants := setKey session.participants socketId anonymousName,
        lastActivity := now,
        expiresAt := now + SESSION_EXPIRY }
      (some session,
       ⟨setKey st.activeSessions code session, setKey st.socketToSession socketId code⟩)

/-- Embeds `getSession` (sessionManager): same expiry/revocation/idleness
checks as join (with eviction), the key-rotation check only logs, and on
success only `lastActivity` is touched. -/
def getSession (st : SessionState) (code : String) (now : Nat) :
    Option Session × SessionState :=
  match st.activeSessions.lookup code with
  | none => (none, st)
  | some session =>
    if now > session.expiresAt then (none, (endSession st code).2)
    else if session.isRevoked then (none, st)
    else if now - session.lastActivity > SESSION_IDLE_TIMEOUT then
      (none, (endSession st code).2)
    else
      let session := { session with lastActivity := now }
      (some session, ⟨setKey st.activeSessions code session, st.socketToSession⟩)

/-- Embeds `getSessionBySocketId` (sessionManager). -/
def getSessionBySocketId (st : SessionState) (socketId : String) (now : Nat) :
    Option Session × SessionState :=
  match st.socketToSession.lookup socketId with
  | none => (none, st)
  | some code => getSession st code now

/-- Embeds `setSessionKey` (sessionManager lines 356-382): fails only when the
code is unknown; otherwise pushes a non-empty current key onto the
previous-keys ring (popping the oldest entry when the ring exceeds
`MAX_PREVIOUS_KEYS`), installs the new key and stamps rotation time and
activity.  No expiry, idleness or revocation check is made. -/
def setSessionKey (st : SessionState) (code sessionKey : String) (now : Nat) :
    Bool × SessionState :=
  match st.activeSessions.lookup code with
  | none => (false, st)
  | some session =>
    let session :=
      if session.sessionKey ≠ "" then
        let pk := session.sessionKey :: session.previousKeys
        { session with previousKeys := if pk.length > MAX_PREVIOUS_KEYS then pk.dropLast else pk }
      else session
    let session := { session with
      sessionKey := sessionKey, keyRotationTime := some now, lastActivity := now }
    (true, ⟨setKey st.activeSessions code session, st.socketToSession⟩)

/-- One character-replacement pass of `sanitizeString`
(`input.replace(/target/g, repl)` for a single-character pattern). -/
def replaceAllChar (target : Char) (repl : Str) (s : Str) : Str :=
  s.flatMap fun c => if c = target then repl else [c]

/-- Embeds `sanitizeString` (validation middleware lines 97-107): the five
chained global replacements, in source order. -/
def sanitizeString (input : Str) : Str :=
  replaceAllChar squote ("&#039;").toList
    (replaceAllChar dquote ("&quot;").toList
      (replaceAllChar '>' ("&gt;").toList
        (replaceAllChar '<' ("&lt;").toList
          (replaceAllChar '&' ("&amp;").toList input))))

/-- The image of one original character under the whole `sanitizeString`
chain (the chain distributes over concatenation). -/
def sanitizeChar (c : Char) : Str := sanitizeString [c]

/-- The five characters `sanitizeString` rewrites. -/
def sanitizeTargets : List Char := ['&', '<', '>', dquote, squote]

/-- The message record the send-message handler broadcasts. -/
structure BroadcastMessage where
  id : String
  sender : String
  senderName : String
  encryptedContent : Str
  timestamp : Nat
  signature : Option Str
deriving DecidableEq

/-- Embeds the `send-message` handler (server index, `sendMessageHandler`):
resolve the sender's session (touching it), sanitize the submitted encrypted
content, and broadcast the sanitized content with the sender's alias.  The
message id draw (`crypto.randomUUID`) is the explicit `msgId` parameter. -/
def sendMessageHandler (st : SessionState) (socketId : String)
    (encryptedContent : Str) (signature : Option Str) (now : Nat)
    (msgId : String) : Option BroadcastMessage × SessionState :=
  match getSessionBySocketId st socketId now with
  | (none, st') => (none, st')
  | (some session, st') =>
    let sanitizedContent := sanitizeString encryptedContent
    let senderName := (session.participants.lookup socketId).getD "Unknown"
    (some { id := msgId, sender := socketId, senderName := senderName,
            encryptedContent := sanitizedContent, timestamp := now,
            signature := signature }, st')

/-- A live demo session used to instantiate hypotheses at concrete inputs. -/
def demoSession : Session :=
  { id := "sid-1", code := "ABCDEF", createdAt := 0, expiresAt := 1000000,
    creatorId := "creator", participants := [("creator", "HappyPanda")],
    sessionKey := "k0", lastActivity := 400000, keyRotationTime := none,
    previousKeys := ["k1"], maxParticipants := 10, isRevoked := false }

/-- Registry state holding `demoSession`. -/
def demoState : SessionState :=
  ⟨[("ABCDEF", demoSession)], [("creator", "ABCDEF")]⟩

/-- `demoSession` at capacity (one participant, `maxParticipants = 1`). -/
def fullSession : Session :=
  { demoSession with maxParticipants := 1 }

/-- Registry state holding `fullSession`. -/
def fullState : SessionState :=
  ⟨[("ABCDEF", fullSession)], [("creator", "ABCDEF")]⟩

/-- Concrete rate-limiter state: address `i` already at the per-address
ceiling with socket `a` attributed to it. -/
def c5DemoState : RLState :=
  ⟨[("a", ⟨5, 0, false, 0, 7, 0, some "i"⟩)],
   [("i", ⟨300, 0, false, 0, ["a"]⟩)]⟩

/-- A concrete current-format payload (its serialization contains quotes). -/
def c9Payload : Str := serializeCurrent (['a']) (['b']) (['c'])

/-- A concrete current-format payload whose `authTag` (32 characters of `z`,
not in the hex alphabet) differs from the recomputed tag. -/
def c2Payload : Str :=
  serializeCurrent (['a', 'a']) (['b', 'b']) (List.replicate 32 'z')

/-- A concrete 32-byte key, as a hex string. -/
def c2Key : Str := (List.replicate 64 'e')

/-- State of the rate limiter after socket `a` makes 101 requests at time 0:
the 101st is the first violation (5-minute block until 300000). -/
def c4FirstBurst : RLState :=
  (runCalls "a" none ⟨[], []⟩ (List.replicate 101 0)).2

/-- State after socket `a` returns 25 hours later (time 90000000, beyond the
24-hour violation expiry) and makes another 101 requests: the first call
unblocks it, the 101st is the second violation. -/
def c4SecondBurst : RLState :=
  (runCalls "a" none c4FirstBurst (List.replicate 101 90000000)).2

/-- Map coherence invariant of the rate limiter: every socket id attributed
to an address record has a per-socket record.  `checkRateLimit` establishes
it (the socket record is created and stored before the id is added to the
address set) and `cleanupRateLimit` removes both sides together. -/
def RLWellFormed (st : RLState) : Prop :=
  ∀ p ∈ st.ipRateLimits, ∀ id ∈ p.2.socketIds, (st.rateLimits.lookup id).isSome

theorem natToStr_strToNat (s : Str) : natToStr (strToNat s) = s := by
  induction s with
  | nil => simp [strToNat, natToStr]
  | cons c cs ih =>
    rw [strToNat, natToStr, Nat.unpair_pair]
    simp [ih, Char.ofNat_toNat]

theorem hexVal?_hexChar : ∀ d, d < 16 → hexVal? (hexChar d) = some d := by decide

theorem hexChar_ne_colon : ∀ d, d < 16 → hexChar d ≠ ':' := by decide

theorem hexChar_ne_lbrace : ∀ d, d < 16 → hexChar d ≠ lbrace := by decide

theorem seqOption_hexVal_map (ds : List Nat) (h : ∀ d ∈ ds, d < 16) :
    seqOption ((ds.map hexChar).map hexVal?) = some ds := by
  induction ds with
  | nil => rfl
  | cons d ds ih =>
    simp only [List.map_cons]
    rw [hexVal?_hexChar d (h d (by simp)), seqOption,
      ih fun x hx => h x (by simp [hx])]
    rfl

theorem hexToNat?_natToHexStr (n : Nat) : hexToNat? (natToHexStr n) = some n := by
  unfold hexToNat? natToHexStr
  rw [← List.map_reverse, seqOption_hexVal_map (Nat.digits 16 n).reverse
    fun d hd => Nat.digits_lt_base (by norm_num) (List.mem_reverse.1 hd)]
  simp [Nat.ofDigits_digits]

theorem mem_natToHexStr {c : Char} {n : Nat} (h : c ∈ natToHexStr n) :
    ∃ d, d < 16 ∧ c = hexChar d := by
  unfold natToHexStr at h
  rw [List.mem_reverse] at h
  obtain ⟨d, hd, rfl⟩ := List.mem_map.1 h
  exact ⟨d, Nat.digits_lt_base (by norm_num) hd, rfl⟩

theorem mem_natToHexFixed {c : Char} {len n : Nat} (h : c ∈ natToHexFixed len n) :
    ∃ d, d < 16 ∧ c = hexChar d := by
  unfold natToHexFixed at h
  rw [List.mem_reverse, List.mem_append] at h
  rcases h with h | h
  · obtain ⟨d, hd, rfl⟩ := List.mem_map.1 h
    exact ⟨d, Nat.digits_lt_base (by norm_num) hd, rfl⟩
  · exact ⟨0, by norm_num, (List.eq_of_mem_replicate h)⟩

theorem mem_randomHex {c : Char} {len seed : Nat} (h : c ∈ randomHex len seed) :
    ∃ d, d < 16 ∧ c = hexChar d := by
  unfold randomHex at h
  obtain ⟨i, _, rfl⟩ := List.mem_map.1 h
  exact ⟨seed / 16 ^ i % 16, Nat.mod_lt _ (by norm_num), rfl⟩

theorem natToHexStr_ne_nil {n : Nat} (h : n ≠ 0) : natToHexStr n ≠ [] := by
  unfold natToHexStr
  simp [Nat.digits_ne_nil_iff_ne_zero, h]

theorem natToHexFixed_length_pos {len n : Nat} (h : 0 < len) :
    0 < (natToHexFixed len n).length := by
  unfold natToHexFixed
  rw [List.length_reverse, List.length_append, List.length_replicate]
  omega

theorem splitOnColon_no_colon (a : Str) (h : ∀ c ∈ a, c ≠ ':') :
    splitOnColon a = [a] := by
  induction a with
  | nil => rfl
  | cons c t ih =>
    rw [splitOnColon, if_neg (h c (by simp)), ih fun x hx => h x (by simp [hx])]

theorem splitOnColon_append (a : Str) (h : ∀ c ∈ a, c ≠ ':') (r : Str) :
    splitOnColon (a ++ ':' :: r) = a :: splitOnColon r := by
  induction a with
  | nil => simp [splitOnColon]
  | cons c t ih =>
    rw [List.cons_append, splitOnColon, if_neg (h c (by simp)),
      ih fun x hx => h x (by simp [hx])]

theorem aesCbcDecrypt?_encrypt (key iv m : Str) :
    aesCbcDecrypt? key iv (aesCbcEncrypt key iv m) = some m := by
  unfold aesCbcEncrypt aesCbcDecrypt?
  rw [hexToNat?_natToHexStr]
  simp only []
  rw [if_pos (Nat.le_add_left _ _), Nat.add_sub_cancel, natToStr_strToNat]

theorem aesCtrDecrypt?_encrypt (key nonce m : Str) :
    aesCtrDecrypt? key nonce (aesCtrEncrypt key nonce m) = some m := by
  unfold aesCtrEncrypt aesCtrDecrypt?
  rw [hexToNat?_natToHexStr]
  simp only []
  rw [if_pos (Nat.le_add_left _ _), Nat.add_sub_cancel, natToStr_strToNat]

theorem stripPat_prepend (p s : Str) : stripPat p (p ++ s) = some s := by
  induction p with
  | nil => rfl
  | cons c t ih => rw [List.cons_append, stripPat, if_pos rfl, ih]

theorem parseStringBody_dquote (T : Str) :
    parseStringBody (dquote :: T) = some ([], T) := by
  rw [parseStringBody.eq_def]
  simp

theorem parseStringBody_escaped {e : Char} (he : e = dquote ∨ e = bslash) (T : Str) :
    parseStringBody (bslash :: e :: T) = (parseStringBody T).map fun p => (e :: p.1, p.2) := by
  rw [parseStringBody.eq_def]
  simp [show ¬(bslash = dquote) by decide, he]

theorem parseStringBody_plain {c : Char} (h1 : c ≠ dquote) (h2 : c ≠ bslash) (T : Str) :
    parseStringBody (c :: T) = (parseStringBody T).map fun p => (c :: p.1, p.2) := by
  rw [parseStringBody.eq_def]
  simp only [if_neg h1, if_neg h2]

theorem parseStringBody_escape (v rest : Str) :
    parseStringBody (jsonEscape v ++ dquote :: rest) = some (v, rest) := by
  induction v with
  | nil =>
    show parseStringBody (dquote :: rest) = some ([], rest)
    exact parseStringBody_dquote rest
  | cons c cs ih =>
    show parseStringBody ((jsonEscapeChar c ++ jsonEscape cs) ++ dquote :: rest) = _
    unfold jsonEscapeChar
    by_cases hc : c = dquote ∨ c = bslash
    · rw [if_pos hc]
      show parseStringBody (bslash :: c :: (jsonEscape cs ++ dquote :: rest)) = _
      rw [parseStringBody_escaped hc, ih]
      rfl
    · rw [if_neg hc]
      push_neg at hc
      show parseStringBody (c :: (jsonEscape cs ++ dquote :: rest)) = _
      rw [parseStringBody_plain hc.1 hc.2, ih]
      rfl

theorem parseCurrentFormat_serialize (n c t : Str) :
    parseCurrentFormat (serializeCurrent n c t) = some (n, c, t) := by
  unfold parseCurrentFormat serializeCurrent
  rw [show
      (lbrace :: keyPat "nonce" ++ jsonEscape n ++
        dquote :: ',' :: keyPat "ciphertext" ++ jsonEscape c ++
        dquote :: ',' :: keyPat "authTag" ++ jsonEscape t ++
        dquote :: rbrace :: [])
      = (lbrace :: keyPat "nonce") ++ (jsonEscape n ++
          dquote :: ((',' :: keyPat "ciphertext") ++ (jsonEscape c ++
          dquote :: ((',' :: keyPat "authTag") ++ (jsonEscape t ++
          dquote :: rbrace :: []))))) by simp]
  rw [stripPat_prepend]
  simp only [Option.bind_eq_bind, Option.some_bind, parseStringBody_escape]
  rw [stripPat_prepend]
  simp only [Option.some_bind, parseStringBody_escape]
  rw [stripPat_prepend]
  simp only [Option.some_bind, parseStringBody_escape]
  simp

theorem parseEnvelope_serialize (m ts : Str) :
    parseEnvelope (serializeEnvelope m ts) = some (m, ts) := by
  unfold parseEnvelope serializeEnvelope
  rw [show
      (lbrace :: keyPat "content" ++ jsonEscape m ++
        dquote :: ',' :: keyPat "timestamp" ++ jsonEscape ts ++
        dquote :: rbrace :: [])
      = (lbrace :: keyPat "content") ++ (jsonEscape m ++
          dquote :: ((',' :: keyPat "timestamp") ++ (jsonEscape ts ++
          dquote :: rbrace :: []))) by simp]
  rw [stripPat_prepend]
  simp only [Option.bind_eq_bind, Option.some_bind, parseStringBody_escape]
  rw [stripPat_prepend]
  simp only [Option.some_bind, parseStringBody_escape]
  simp

theorem parseCurrentFormat_cons_none {c : Char} {s : Str} (h : c ≠ lbrace) :
    parseCurrentFormat (c :: s) = none := by
  unfold parseCurrentFormat
  rw [show (lbrace :: keyPat "nonce" : Str) = lbrace :: keyPat "nonce" from rfl]
  rw [stripPat, if_neg h]
  rfl

theorem cipherMask_pos (tag key iv : Str) : 0 < cipherMask tag key iv := by
  unfold cipherMask
  omega

theorem randomHex_ne_nil {len seed : Nat} (h : len ≠ 0) : randomHex len seed ≠ [] := by
  unfold randomHex
  simp [List.range_eq_nil, h]

theorem take_ne_nil {α : Type} {l : List α} {n : Nat} (hn : n ≠ 0) (hl : l ≠ []) :
    l.take n ≠ [] := by
  cases l with
  | nil => exact absurd rfl hl
  | cons a t =>
    cases n with
    | zero => exact absurd rfl hn
    | succ n => simp

theorem parseCurrentFormat_append_none {a : Str} (ha : a ≠ [])
    (h : ∀ c ∈ a, c ≠ lbrace) (b : Str) : parseCurrentFormat (a ++ b) = none := by
  cases a with
  | nil => exact absurd rfl ha
  | cons c t =>
    rw [List.cons_append]
    exact parseCurrentFormat_cons_none (h c (by simp))

theorem decrypt_encrypt_legacy (m k : Str) (rnd nowMs : Nat) :
    decryptMessage (encryptMessageWith true m k rnd nowMs) k = Except.ok m := by
  unfold encryptMessageWith
  simp only [if_true]
  rw [List.append_assoc, List.cons_append]
  unfold decryptMessage
  rw [@parseCurrentFormat_append_none (randomHex 32 rnd)
    (randomHex_ne_nil (by norm_num))
    (fun c hc => by
      obtain ⟨d, hd, rfl⟩ := mem_randomHex hc
      exact hexChar_ne_lbrace d hd) _]
  unfold legacyDecrypt
  rw [splitOnColon_append _ (fun c hc => by
      obtain ⟨d, hd, rfl⟩ := mem_randomHex hc
      exact hexChar_ne_colon d hd)]
  rw [splitOnColon_append _ (fun c hc => by
      obtain ⟨d, hd, rfl⟩ :=
        @mem_natToHexStr c (strToNat m + cipherMask ("CBC").toList k (randomHex 32 rnd))
          (by simpa [aesCbcEncrypt] using hc)
      exact hexChar_ne_colon d hd)]
  simp only []
  rw [aesCbcDecrypt?_encrypt]

theorem decrypt_encrypt_current (m k : Str) (rnd nowMs : Nat) :
    decryptMessage (encryptMessageWith false m k rnd nowMs) k = Except.ok m := by
  unfold encryptMessageWith
  simp only [Bool.false_eq_true, if_false]
  unfold decryptMessage
  rw [parseCurrentFormat_serialize]
  simp only []
  rw [if_pos ⟨randomHex_ne_nil (by norm_num),
        natToHexStr_ne_nil (by have := cipherMask_pos ("CTR").toList k (randomHex 24 rnd); omega),
        take_ne_nil (by norm_num)
          (by
            intro hcon
            have := @natToHexFixed_length_pos 64
              (hashNat (k ++ (randomHex 24 rnd ++
                aesCtrEncrypt k (randomHex 24 rnd)
                  (serializeEnvelope m (natToDecStr nowMs)))) % 16 ^ 64) (by norm_num)
            rw [show natToHexFixed 64
                (hashNat (k ++ (randomHex 24 rnd ++
                  aesCtrEncrypt k (randomHex 24 rnd)
                    (serializeEnvelope m (natToDecStr nowMs)))) % 16 ^ 64)
              = hmacSHA256 (randomHex 24 rnd ++
                  aesCtrEncrypt k (randomHex 24 rnd)
                    (serializeEnvelope m (natToDecStr nowMs))) k from rfl] at this
            rw [hcon] at this
            simp at this)⟩]
  simp only [if_true]
  rw [aesCtrDecrypt?_encrypt]
  simp only []
  rw [parseEnvelope_serialize]

/-- C1: for every plaintext string and every key, decrypting an encryption of
the plaintext under the same key returns the original plaintext, both for the
legacy wire format `iv_hex : ciphertext_b64 : hmac_hex` (the branch
`encryptMessage` actually takes, since the source pins `useLegacyFormat =
true`) and for the current JSON format `{nonce, ciphertext, authTag}`
produced by the other branch of the same conditional. -/
theorem c1_decrypt_encrypt_roundtrip (message key : Str) (rnd nowMs : Nat) :
    decryptMessage (encryptMessage message key rnd nowMs) key = Except.ok message
    ∧ decryptMessage (encryptMessageWith false message key rnd nowMs) key
        = Except.ok message :=
  ⟨decrypt_encrypt_legacy message key rnd nowMs,
   decrypt_encrypt_current message key rnd nowMs⟩

/-- C2: refuted on the code.  `c2Payload` is a well-formed current-format
payload whose `authTag` (32 `z` characters) differs from the first 32 hex
characters of the recomputed HMAC, yet `decryptMessage` does not hard-fail
with the authentication error: the authentication throw is swallowed by the
enclosing `catch (jsonError)` block (encryption.ts lines 232-308), control
falls through to the legacy branch, which splits the JSON text on `:` and
attempts CBC decryption of the fragment between the first two colons; that
fails UTF-8 decoding, so the surfaced error is the generic decrypt failure,
not the authentication failure. -/
theorem c2_tamper_fallthrough_eval :
    (hmacSHA256 ((['a', 'a'] : Str) ++ (['b', 'b'] : Str)) c2Key).take 32
        ≠ List.replicate 32 'z'
    ∧ decryptMessage c2Payload c2Key = Except.error utf8FailMsg
    ∧ decryptMessage c2Payload c2Key ≠ Except.error authFailMsg := by
  have hne : (hmacSHA256 ((['a', 'a'] : Str) ++ (['b', 'b'] : Str)) c2Key).take 32
      ≠ List.replicate 32 'z' := by
    intro h
    have hz : ('z' : Char) ∈
        (hmacSHA256 ((['a', 'a'] : Str) ++ (['b', 'b'] : Str)) c2Key).take 32 := by
      rw [h]
      decide
    have hmem := List.mem_of_mem_take hz
    unfold hmacSHA256 at hmem
    obtain ⟨d, hd, hzd⟩ := mem_natToHexFixed hmem
    revert hzd
    revert hd
    revert d
    decide
  have heval : decryptMessage c2Payload c2Key = Except.error utf8FailMsg := by
    rw [show c2Payload
        = serializeCurrent (['a', 'a']) (['b', 'b']) (List.replicate 32 'z') from rfl]
    unfold decryptMessage
    rw [parseCurrentFormat_serialize]
    simp only []
    rw [if_pos (by refine ⟨by decide, by decide, by decide⟩)]
    rw [if_neg hne]
    rfl
  refine ⟨hne, heval, ?_⟩
  rw [heval]
  intro hcon
  exact absurd (Except.error.inj hcon) (by decide)

/-- C10: for any two generated key pairs, each party's ECDH derivation of the
other's public key yields the same working symmetric key: the shared point
`a * (b * G) = b * (a * G)` agrees, so the HKDF output agrees. -/
theorem c10_ecdh_shared_secret_symmetric (r s : Nat) :
    deriveSharedSecret (generateKeyPair r).privateKey (generateKeyPair s).publicKey
      = deriveSharedSecret (generateKeyPair s).privateKey (generateKeyPair r).publicKey := by
  unfold generateKeyPair deriveSharedSecret
  simp only []
  have hpt : ((r : P256)) * ((s : P256) * basePoint)
      = ((s : P256)) * ((r : P256) * basePoint) := by ring
  rw [hpt]

theorem replaceAllChar_append (t : Char) (r x y : Str) :
    replaceAllChar t r (x ++ y) = replaceAllChar t r x ++ replaceAllChar t r y := by
  unfold replaceAllChar
  exact List.flatMap_append x y _

theorem sanitizeString_append (x y : Str) :
    sanitizeString (x ++ y) = sanitizeString x ++ sanitizeString y := by
  unfold sanitizeString
  simp only [replaceAllChar_append]

theorem sanitizeString_cons (c : Char) (l : Str) :
    sanitizeString (c :: l) = sanitizeChar c ++ sanitizeString l := by
  rw [show (c :: l : Str) = [c] ++ l from rfl, sanitizeString_append]
  rfl

theorem replaceAllChar_id {t : Char} (r : Str) {s : Str} (h : ∀ c ∈ s, c ≠ t) :
    replaceAllChar t r s = s := by
  induction s with
  | nil => rfl
  | cons c cs ih =>
    unfold replaceAllChar at *
    simp only [List.flatMap_cons, if_neg (h c (by simp))]
    rw [ih fun x hx => h x (by simp [hx])]
    rfl

theorem replaceAllChar_length_ge (t : Char) {r : Str} (hr : r ≠ []) (s : Str) :
    s.length ≤ (replaceAllChar t r s).length := by
  induction s with
  | nil => simp [replaceAllChar]
  | cons c cs ih =>
    unfold replaceAllChar at *
    simp only [List.flatMap_cons, List.length_append, List.length_cons]
    have : 1 ≤ (if c = t then r else [c]).length := by
      by_cases hc : c = t
      · simp only [if_pos hc]
        cases r with
        | nil => exact absurd rfl hr
        | cons a b => simp
      · simp [if_neg hc]
    omega

theorem replaceAllChar_length_gt {t : Char} {r : Str} (hr : 2 ≤ r.length) {s : Str}
    (ht : t ∈ s) : s.length < (replaceAllChar t r s).length := by
  induction s with
  | nil => simp at ht
  | cons c cs ih =>
    unfold replaceAllChar at *
    simp only [List.flatMap_cons, List.length_append, List.length_cons]
    have hge : cs.length ≤ (cs.flatMap fun c => if c = t then r else [c]).length :=
      replaceAllChar_length_ge t (by intro h; rw [h] at hr; simp at hr) cs
    rcases List.mem_cons.1 ht with h | h
    · rw [if_pos h.symm]
      omega
    · have := ih h
      have h1 : 1 ≤ (if c = t then r else [c]).length := by
        by_cases hc : c = t
        · rw [if_pos hc]; omega
        · simp [if_neg hc]
      omega

theorem mem_replaceAllChar_of {c t : Char} (r : Str) {s : Str} (hc : c ∈ s)
    (hne : c ≠ t) : c ∈ replaceAllChar t r s := by
  unfold replaceAllChar
  exact List.mem_flatMap.2 ⟨c, hc, by simp [if_neg hne]⟩

theorem sanitizeString_id {s : Str} (h : ∀ c ∈ s, c ∉ sanitizeTargets) :
    sanitizeString s = s := by
  have hAmp : ∀ c ∈ s, c ≠ '&' := fun c hc => by
    have := h c hc; simp [sanitizeTargets] at this; exact this.1
  have hLt : ∀ c ∈ s, c ≠ '<' := fun c hc => by
    have := h c hc; simp [sanitizeTargets] at this; exact this.2.1
  have hGt : ∀ c ∈ s, c ≠ '>' := fun c hc => by
    have := h c hc; simp [sanitizeTargets] at this; exact this.2.2.1
  have hQ : ∀ c ∈ s, c ≠ dquote := fun c hc => by
    have := h c hc; simp [sanitizeTargets] at this; exact this.2.2.2.1
  have hS : ∀ c ∈ s, c ≠ squote := fun c hc => by
    have := h c hc; simp [sanitizeTargets] at this; exact this.2.2.2.2
  unfold sanitizeString
  rw [replaceAllChar_id _ hAmp, replaceAllChar_id _ hLt, replaceAllChar_id _ hGt,
    replaceAllChar_id _ hQ, replaceAllChar_id _ hS]

theorem sanitizeString_length_lt {s : Str} {c : Char} (hc : c ∈ s)
    (hct : c ∈ sanitizeTargets) : s.length < (sanitizeString s).length := by
  have gAmp : ∀ x : Str, x.length ≤ (replaceAllChar '&' ("&amp;").toList x).length :=
    fun x => replaceAllChar_length_ge _ (by decide) x
  have gLt : ∀ x : Str, x.length ≤ (replaceAllChar '<' ("&lt;").toList x).length :=
    fun x => replaceAllChar_length_ge _ (by decide) x
  have gGt : ∀ x : Str, x.length ≤ (replaceAllChar '>' ("&gt;").toList x).length :=
    fun x => replaceAllChar_length_ge _ (by decide) x
  have gQ : ∀ x : Str, x.length ≤ (replaceAllChar dquote ("&quot;").toList x).length :=
    fun x => replaceAllChar_length_ge _ (by decide) x
  have gS : ∀ x : Str, x.length ≤ (replaceAllChar squote ("&#039;").toList x).length :=
    fun x => replaceAllChar_length_ge _ (by decide) x
  unfold sanitizeString
  simp only [sanitizeTargets, List.mem_cons, List.not_mem_nil, or_false] at hct
  rcases hct with rfl | rfl | rfl | rfl | rfl
  · calc s.length
        < (replaceAllChar '&' ("&amp;").toList s).length :=
          replaceAllChar_length_gt (by decide) hc
      _ ≤ _ := gLt _
      _ ≤ _ := gGt _
      _ ≤ _ := gQ _
      _ ≤ _ := gS _
  · have h1 : '<' ∈ replaceAllChar '&' ("&amp;").toList s :=
      mem_replaceAllChar_of _ hc (by decide)
    calc s.length
        ≤ _ := gAmp s
      _ < (replaceAllChar '<' ("&lt;").toList
            (replaceAllChar '&' ("&amp;").toList s)).length :=
          replaceAllChar_length_gt (by decide) h1
      _ ≤ _ := gGt _
      _ ≤ _ := gQ _
      _ ≤ _ := gS _
  · have h1 : '>' ∈ replaceAllChar '&' ("&amp;").toList s :=
      mem_replaceAllChar_of _ hc (by decide)
    have h2 : '>' ∈ replaceAllChar '<' ("&lt;").toList
        (replaceAllChar '&' ("&amp;").toList s) :=
      mem_replaceAllChar_of _ h1 (by decide)
    calc s.length
        ≤ _ := gAmp s
      _ ≤ _ := gLt _
      _ < (replaceAllChar '>' ("&gt;").toList
            (replaceAllChar '<' ("&lt;").toList
              (replaceAllChar '&' ("&amp;").toList s))).length :=
          replaceAllChar_length_gt (by decide) h2
      _ ≤ _ := gQ _
      _ ≤ _ := gS _
  · have h1 : dquote ∈ replaceAllChar '&' ("&amp;").toList s :=
      mem_replaceAllChar_of _ hc (by decide)
    have h2 : dquote ∈ replaceAllChar '<' ("&lt;").toList
        (replaceAllChar '&' ("&amp;").toList s) :=
      mem_replaceAllChar_of _ h1 (by decide)
    have h3 : dquote ∈ replaceAllChar '>' ("&gt;").toList
        (replaceAllChar '<' ("&lt;").toList
          (replaceAllChar '&' ("&amp;").toList s)) :=
      mem_replaceAllChar_of _ h2 (by decide)
    calc s.length
        ≤ _ := gAmp s
      _ ≤ _ := gLt _
      _ ≤ _ := gGt _
      _ < (replaceAllChar dquote ("&quot;").toList
            (replaceAllChar '>' ("&gt;").toList
              (replaceAllChar '<' ("&lt;").toList
                (replaceAllChar '&' ("&amp;").toList s)))).length :=
          replaceAllChar_length_gt (by decide) h3
      _ ≤ _ := gS _
  · have h1 : squote ∈ replaceAllChar '&' ("&amp;").toList s :=
      mem_replaceAllChar_of _ hc (by decide)
    have h2 : squote ∈ replaceAllChar '<' ("&lt;").toList
        (replaceAllChar '&' ("&amp;").toList s) :=
      mem_replaceAllChar_of _ h1 (by decide)
    have h3 : squote ∈ replaceAllChar '>' ("&gt;").toList
        (replaceAllChar '<' ("&lt;").toList
          (replaceAllChar '&' ("&amp;").toList s)) :=
      mem_replaceAllChar_of _ h2 (by decide)
    have h4 : squote ∈ replaceAllChar dquote ("&quot;").toList
        (replaceAllChar '>' ("&gt;").toList
          (replaceAllChar '<' ("&lt;").toList
            (replaceAllChar '&' ("&amp;").toList s))) :=
      mem_replaceAllChar_of _ h3 (by decide)
    calc s.length
        ≤ _ := gAmp s
      _ ≤ _ := gLt _
      _ ≤ _ := gGt _
      _ ≤ _ := gQ _
      _ < _ := replaceAllChar_length_gt (by decide) h4

theorem sanitizeString_fixed_iff (s : Str) :
    sanitizeString s = s ↔ ∀ c ∈ s, c ∉ sanitizeTargets := by
  constructor
  · intro h c hc hct
    have := sanitizeString_length_lt hc hct
    rw [h] at this
    exact lt_irrefl _ this
  · exact sanitizeString_id

theorem serializeCurrent_eq_cons (n c t : Str) :
    serializeCurrent n c t
      = lbrace :: dquote :: (("nonce").toList ++ dquote :: ':' :: dquote ::
          (jsonEscape n ++ dquote :: ',' :: keyPat "ciphertext" ++ jsonEscape c ++
           dquote :: ',' :: keyPat "authTag" ++ jsonEscape t ++
           dquote :: rbrace :: [])) := by
  simp [serializeCurrent, keyPat]

theorem sanitizeChar_lbrace : sanitizeChar lbrace = [lbrace] := by
  decide

theorem sanitizeChar_dquote : sanitizeChar dquote = ("&quot;").toList := by
  decide

theorem dquote_mem_serializeCurrent (n c t : Str) :
    dquote ∈ serializeCurrent n c t := by
  rw [serializeCurrent_eq_cons]
  simp

theorem sanitize_serializeCurrent_ne (n c t : Str) :
    sanitizeString (serializeCurrent n c t) ≠ serializeCurrent n c t := by
  intro h
  exact (sanitizeString_fixed_iff _).1 h dquote (dquote_mem_serializeCurrent n c t)
    (by simp [sanitizeTargets])

theorem sanitize_serializeCurrent_parse_none (n c t : Str) :
    parseCurrentFormat (sanitizeString (serializeCurrent n c t)) = none := by
  rw [serializeCurrent_eq_cons n c t]
  rw [show (lbrace :: dquote :: (("nonce").toList ++ dquote :: ':' :: dquote ::
        (jsonEscape n ++ dquote :: ',' :: keyPat "ciphertext" ++ jsonEscape c ++
         dquote :: ',' :: keyPat "authTag" ++ jsonEscape t ++
         dquote :: rbrace :: [])) : Str)
      = [lbrace] ++ ([dquote] ++ (("nonce").toList ++ dquote :: ':' :: dquote ::
        (jsonEscape n ++ dquote :: ',' :: keyPat "ciphertext" ++ jsonEscape c ++
         dquote :: ',' :: keyPat "authTag" ++ jsonEscape t ++
         dquote :: rbrace :: []))) from by simp]
  rw [sanitizeString_append, sanitizeString_append]
  rw [show sanitizeString [lbrace] = [lbrace] from by decide]
  rw [show sanitizeString [dquote] = ("&quot;").toList from by decide]
  unfold parseCurrentFormat
  rw [show (keyPat "nonce") = dquote :: (("nonce").toList ++ dquote :: ':' :: dquote :: []) from by
    simp [keyPat]]
  rw [show ([lbrace] ++ (("&quot;").toList ++ sanitizeString (("nonce").toList ++
        dquote :: ':' :: dquote ::
        (jsonEscape n ++ dquote :: ',' :: keyPat "ciphertext" ++ jsonEscape c ++
         dquote :: ',' :: keyPat "authTag" ++ jsonEscape t ++
         dquote :: rbrace :: [])) : Str))
      = lbrace :: '&' :: ('q' :: 'u' :: 'o' :: 't' :: ';' ::
          sanitizeString (("nonce").toList ++ dquote :: ':' :: dquote ::
        (jsonEscape n ++ dquote :: ',' :: keyPat "ciphertext" ++ jsonEscape c ++
         dquote :: ',' :: keyPat "authTag" ++ jsonEscape t ++
         dquote :: rbrace :: []))) from by simp]
  rw [stripPat, if_pos rfl, stripPat, if_neg (by decide)]
  rfl

theorem sendMessageHandler_sanitizes {st : SessionState} {socketId : String}
    {content : Str} {sig : Option Str} {now : Nat} {mid : String}
    {msg : BroadcastMessage}
    (h : (sendMessageHandler st socketId content sig now mid).1 = some msg) :
    msg.encryptedContent = sanitizeString content := by
  unfold sendMessageHandler at h
  rcases hg : getSessionBySocketId st socketId now with ⟨o, st2⟩
  rw [hg] at h
  cases o with
  | none => simp at h
  | some sess =>
    simp only [] at h
    have hh := Option.some.inj h
    rw [← hh]

/-- C9: the send-message handler broadcasts `sanitizeString(encryptedContent)`
rather than the submitted payload; `sanitizeString s = s` exactly when `s`
contains none of `& < > " '`; consequently every current-format payload (whose
JSON serialization necessarily contains double quotes) is altered by the
broadcast and no longer parses in the shape the sender emitted. -/
theorem c9_broadcast_sanitized :
    (∀ (st : SessionState) (socketId : String) (content : Str) (sig : Option Str)
        (now : Nat) (mid : String) (msg : BroadcastMessage),
        (sendMessageHandler st socketId content sig now mid).1 = some msg →
        msg.encryptedContent = sanitizeString content)
    ∧ (∀ s : Str, sanitizeString s = s ↔ ∀ c ∈ s, c ∉ sanitizeTargets)
    ∧ (∀ n c t : Str,
        sanitizeString (serializeCurrent n c t) ≠ serializeCurrent n c t
        ∧ parseCurrentFormat (sanitizeString (serializeCurrent n c t)) = none) :=
  ⟨fun _ _ _ _ _ _ _ h => sendMessageHandler_sanitizes h,
   sanitizeString_fixed_iff,
   fun n c t => ⟨sanitize_serializeCurrent_ne n c t,
                 sanitize_serializeCurrent_parse_none n c t⟩⟩

/-- C9 witness: a concrete handler run on a live session broadcasts the
sanitized payload. -/
theorem c9_broadcast_sanitized_witness :
    (sendMessageHandler demoState "creator" c9Payload none 500000 "m1").1
      = some ⟨"m1", "creator", "HappyPanda", sanitizeString c9Payload, 500000, none⟩
    ∧ (⟨"m1", "creator", "HappyPanda", sanitizeString c9Payload, 500000, none⟩ :
        BroadcastMessage).encryptedContent = sanitizeString c9Payload := by
  have h : (sendMessageHandler demoState "creator" c9Payload none 500000 "m1").1
      = some ⟨"m1", "creator", "HappyPanda", sanitizeString c9Payload, 500000, none⟩ := by
    rfl
  exact ⟨h, c9_broadcast_sanitized.1 demoState "creator" c9Payload none 500000 "m1" _ h⟩

theorem lookup_setKey_self {β : Type} (l : List (String × β)) (k : String) (v : β) :
    (setKey l k v).lookup k = some v := by
  induction l with
  | nil =>
    unfold setKey
    simp [List.lookup]
  | cons p t ih =>
    rcases p with ⟨k0, v0⟩
    unfold setKey
    by_cases h0 : k0 = k
    · simp [h0, List.lookup]
    · simp only [if_neg h0, List.lookup]
      rw [show (k == k0) = false from beq_eq_false_iff_ne.2 fun hh => h0 hh.symm]
      exact ih

theorem lookup_setKey_ne {β : Type} (l : List (String × β)) {k k' : String} (v : β)
    (h : k' ≠ k) : (setKey l k v).lookup k' = l.lookup k' := by
  induction l with
  | nil =>
    unfold setKey
    simp only [List.lookup]
    rw [show (k' == k) = false from beq_eq_false_iff_ne.2 h]
  | cons p t ih =>
    rcases p with ⟨k0, v0⟩
    unfold setKey
    by_cases h0 : k0 = k
    · subst h0
      simp only [if_pos rfl, List.lookup]
      rw [show (k' == k0) = false from beq_eq_false_iff_ne.2 h]
    · simp only [if_neg h0, List.lookup]
      by_cases h1 : k' = k0
      · rw [show (k' == k0) = true from beq_iff_eq.2 h1]
      · rw [show (k' == k0) = false from beq_eq_false_iff_ne.2 h1]
        exact ih

/-- C6: `setSessionKey` fails exactly when the code is unknown (succeeding
regardless of expiry, idleness or revocation, since it makes none of those
checks); on success for a session whose ring respects the bound, a non-empty
current key is pushed to the front of the previous-keys ring, the ring is
truncated to at most `MAX_PREVIOUS_KEYS = 3` entries (most recent first), the
new key is installed, and rotation time and activity are stamped. -/
theorem c6_setSessionKey (st : SessionState) (code key : String) (now : Nat) :
    (setSessionKey st code key now).1 = (st.activeSessions.lookup code).isSome
    ∧ (st.activeSessions.lookup code = none →
        setSessionKey st code key now = (false, st))
    ∧ (∀ s, st.activeSessions.lookup code = some s →
        s.previousKeys.length ≤ MAX_PREVIOUS_KEYS →
        ∃ s', (setSessionKey st code key now).2.activeSessions.lookup code = some s'
          ∧ s'.sessionKey = key ∧ s'.keyRotationTime = some now
          ∧ s'.lastActivity = now
          ∧ s'.previousKeys
              = (if s.sessionKey ≠ "" then
                  (s.sessionKey :: s.previousKeys).take MAX_PREVIOUS_KEYS
                 else s.previousKeys)
          ∧ s'.previousKeys.length ≤ MAX_PREVIOUS_KEYS) := by
  refine ⟨?_, ?_, ?_⟩
  · unfold setSessionKey
    cases h : st.activeSessions.lookup code with
    | none => simp
    | some s => simp
  · intro h
    unfold setSessionKey
    rw [h]
  · intro s h hlen
    unfold setSessionKey
    rw [h]
    simp only []
    refine ⟨_, lookup_setKey_self _ _ _, rfl, rfl, rfl, ?_, ?_⟩
    · by_cases hk : s.sessionKey ≠ ""
      · rw [if_pos hk, if_pos hk]
        simp only []
        by_cases hl : (s.sessionKey :: s.previousKeys).length > MAX_PREVIOUS_KEYS
        · rw [if_pos hl, List.dropLast_eq_take]
          have : (s.sessionKey :: s.previousKeys).length = s.previousKeys.length + 1 := by
            simp
          have hlen3 : s.previousKeys.length = MAX_PREVIOUS_KEYS := by
            unfold MAX_PREVIOUS_KEYS at *
            omega
          rw [this, hlen3, Nat.add_sub_cancel]
        · rw [if_neg hl, List.take_of_length_le (by omega)]
      · rw [if_neg hk, if_neg hk]
    · by_cases hk : s.sessionKey ≠ ""
      · rw [if_pos hk]
        simp only []
        by_cases hl : (s.sessionKey :: s.previousKeys).length > MAX_PREVIOUS_KEYS
        · rw [if_pos hl]
          rw [List.length_dropLast]
          simp only [List.length_cons]
          unfold MAX_PREVIOUS_KEYS at *
          omega
        · rw [if_neg hl]
          omega
      · rw [if_neg hk]
        exact hlen

/-- C6 witness: a concrete rotation on `demoState` (current key `k0`, ring
`[k1]`): succeeds, pushes `k0`, installs the new key. -/
theorem c6_setSessionKey_witness :
    demoState.activeSessions.lookup "ABCDEF" = some demoSession
    ∧ demoSession.previousKeys.length ≤ MAX_PREVIOUS_KEYS
    ∧ ∃ s', (setSessionKey demoState "ABCDEF" "k9" 777777).2.activeSessions.lookup
          "ABCDEF" = some s'
        ∧ s'.sessionKey = "k9" ∧ s'.keyRotationTime = some 777777
        ∧ s'.lastActivity = 777777
        ∧ s'.previousKeys
            = (if demoSession.sessionKey ≠ "" then
                (demoSession.sessionKey :: demoSession.previousKeys).take MAX_PREVIOUS_KEYS
               else demoSession.previousKeys)
        ∧ s'.previousKeys.length ≤ MAX_PREVIOUS_KEYS :=
  ⟨rfl, by decide,
   (c6_setSessionKey demoState "ABCDEF" "k9" 777777).2.2 demoSession rfl (by decide)⟩

/-- C7: `joinSession` returns null for an unknown code (leaving the state
unchanged), for an expired session (`now` strictly past `expiresAt`, i.e.
more than 10 minutes past the baseline from which `expiresAt` was set), and
for a session idle more than 5 minutes; on a live session that is already at
`maxParticipants` it returns null with the whole registry state — the
session's participant map, `lastActivity`, `expiresAt`, and the connection
index — unchanged. -/
theorem c7_joinSession (st : SessionState) (sid code : String) (now rnd : Nat) :
    (st.activeSessions.lookup code = none →
        joinSession st sid code now rnd = (none, st))
    ∧ (∀ s, st.activeSessions.lookup code = some s → now > s.expiresAt →
        (joinSession st sid code now rnd).1 = none)
    ∧ (∀ s, st.activeSessions.lookup code = some s →
        now - s.lastActivity > SESSION_IDLE_TIMEOUT →
        (joinSession st sid code now rnd).1 = none)
    ∧ (∀ s, st.activeSessions.lookup code = some s →
        ¬ now > s.expiresAt → s.isRevoked = false →
        ¬ now - s.lastActivity > SESSION_IDLE_TIMEOUT →
        s.participants.length = s.maxParticipants →
        joinSession st sid code now rnd = (none, st)) := by
  refine ⟨?_, ?_, ?_, ?_⟩
  · intro h
    unfold joinSession
    rw [h]
  · intro s h hexp
    unfold joinSession
    rw [h]
    simp only [if_pos hexp]
  · intro s h hidle
    unfold joinSession
    rw [h]
    simp only []
    by_cases hexp : now > s.expiresAt
    · rw [if_pos hexp]
    · rw [if_neg hexp]
      by_cases hrev : s.isRevoked
      · simp [hrev]
      · simp only [hrev, if_false, Bool.false_eq_true]
        rw [if_pos hidle]
  · intro s h hexp hrev hidle hfull
    unfold joinSession
    rw [h]
    simp only []
    rw [if_neg hexp]
    rw [if_neg (by simp [hrev])]
    rw [if_neg hidle]
    rw [if_pos (le_of_eq hfull.symm)]

/-- C7 witness: joining the at-capacity live session `fullSession` fails and
leaves the registry untouched; an unknown code also fails. -/
theorem c7_joinSession_witness :
    fullState.activeSessions.lookup "ABCDEF" = some fullSession
    ∧ ¬ (500000 : Nat) > fullSession.expiresAt
    ∧ fullSession.isRevoked = false
    ∧ ¬ (500000 : Nat) - fullSession.lastActivity > SESSION_IDLE_TIMEOUT
    ∧ fullSession.participants.length = fullSession.maxParticipants
    ∧ joinSession fullState "joiner" "ABCDEF" 500000 3 = (none, fullState)
    ∧ fullState.activeSessions.lookup "ZZZZZZ" = none
    ∧ joinSession fullState "joiner" "ZZZZZZ" 500000 3 = (none, fullState) :=
  ⟨rfl, by decide, rfl, by decide, rfl,
   (c7_joinSession fullState "joiner" "ABCDEF" 500000 3).2.2.2 fullSession rfl
     (by decide) rfl (by decide) rfl,
   rfl,
   (c7_joinSession fullState "joiner" "ZZZZZZ" 500000 3).1 rfl⟩

/-- C8 counterexample: at a concrete live session, both `getSession` (a read
access used by message sending) and `setSessionKey` succeed — session-scoped
activities — yet both leave `expiresAt` exactly at its old value `1000000`
instead of advancing it; only `lastActivity` is refreshed.  This falsifies
the claim that `expiresAt` is advanced by every session-scoped activity,
including key-set and read accesses. -/
theorem c8_expiresAt_not_advanced_counterexample :
    (getSession demoState "ABCDEF" 500000).1.isSome = true
    ∧ ((getSession demoState "ABCDEF" 500000).2.activeSessions.lookup "ABCDEF").map
        Session.expiresAt = some demoSession.expiresAt
    ∧ ((getSession demoState "ABCDEF" 500000).2.activeSessions.lookup "ABCDEF").map
        Session.lastActivity = some 500000
    ∧ (setSessionKey demoState "ABCDEF" "k9" 500000).1 = true
    ∧ ((setSessionKey demoState "ABCDEF" "k9" 500000).2.activeSessions.lookup
        "ABCDEF").map Session.expiresAt = some demoSession.expiresAt
    ∧ demoSession.expiresAt = 1000000 := by
  exact ⟨rfl, rfl, rfl, rfl, rfl, rfl⟩

/-- C8 (amended): on a live session, `lastActivity` is set to `now` by
`getSession`, `setSessionKey` and `joinSession` (hence monotonically
refreshed whenever the clock has not gone backwards); `expiresAt` is never
decreased by any of them, and is advanced to `now + SESSION_EXPIRY` by
`joinSession`, but `getSession` and `setSessionKey` leave `expiresAt`
unchanged. -/
theorem c8_amended_activity_refresh (st : SessionState) (code sid key : String)
    (now rnd : Nat) :
    (∀ s, st.activeSessions.lookup code = some s →
        ¬ now > s.expiresAt → s.isRevoked = false →
        ¬ now - s.lastActivity > SESSION_IDLE_TIMEOUT →
        ∃ s', (getSession st code now).2.activeSessions.lookup code = some s'
          ∧ s'.lastActivity = now ∧ s'.expiresAt = s.expiresAt)
    ∧ (∀ s, st.activeSessions.lookup code = some s →
        ∃ s', (setSessionKey st code key now).2.activeSessions.lookup code = some s'
          ∧ s'.lastActivity = now ∧ s'.expiresAt = s.expiresAt)
    ∧ (∀ s, st.activeSessions.lookup code = some s →
        ¬ now > s.expiresAt → s.isRevoked = false →
        ¬ now - s.lastActivity > SESSION_IDLE_TIMEOUT →
        s.participants.length < s.maxParticipants →
        ∃ s', (joinSession st sid code now rnd).2.activeSessions.lookup code = some s'
          ∧ s'.lastActivity = now ∧ s'.expiresAt = now + SESSION_EXPIRY
          ∧ (s.lastActivity ≤ now → s.lastActivity ≤ s'.lastActivity)
          ∧ (s.expiresAt ≤ now + SESSION_EXPIRY → s.expiresAt ≤ s'.expiresAt)) := by
  refine ⟨?_, ?_, ?_⟩
  · intro s h hexp hrev hidle
    unfold getSession
    rw [h]
    simp only []
    rw [if_neg hexp, if_neg (by simp [hrev]), if_neg hidle]
    exact ⟨_, lookup_setKey_self _ _ _, rfl, rfl⟩
  · intro s h
    unfold setSessionKey
    rw [h]
    simp only []
    refine ⟨_, lookup_setKey_self _ _ _, rfl, ?_⟩
    by_cases hk : s.sessionKey ≠ ""
    · rw [if_pos hk]
    · rw [if_neg hk]
  · intro s h hexp hrev hidle hroom
    unfold joinSession
    rw [h]
    simp only []
    rw [if_neg hexp, if_neg (by simp [hrev]), if_neg hidle,
      if_neg (by omega : ¬ s.participants.length ≥ s.maxParticipants)]
    exact ⟨_, lookup_setKey_self _ _ _, rfl, rfl,
      fun hmono => hmono, fun hmono => hmono⟩

/-- C8 witness (for the amended claim): concrete runs on `demoState` at time
500000: `getSession` and `setSessionKey` refresh `lastActivity` and keep
`expiresAt`; a join refreshes both. -/
theorem c8_amended_activity_refresh_witness :
    demoState.activeSessions.lookup "ABCDEF" = some demoSession
    ∧ (∃ s', (getSession demoState "ABCDEF" 500000).2.activeSessions.lookup
          "ABCDEF" = some s'
        ∧ s'.lastActivity = 500000 ∧ s'.expiresAt = demoSession.expiresAt)
    ∧ (∃ s', (joinSession demoState "joiner" "ABCDEF" 500000 3).2.activeSessions.lookup
          "ABCDEF" = some s'
        ∧ s'.lastActivity = 500000 ∧ s'.expiresAt = 500000 + SESSION_EXPIRY
        ∧ (demoSession.lastActivity ≤ 500000 →
            demoSession.lastActivity ≤ s'.lastActivity)
        ∧ (demoSession.expiresAt ≤ 500000 + SESSION_EXPIRY →
            demoSession.expiresAt ≤ s'.expiresAt)) :=
  ⟨rfl,
   (c8_amended_activity_refresh demoState "ABCDEF" "joiner" "k9" 500000 3).1
     demoSession rfl (by decide) rfl (by decide),
   (c8_amended_activity_refresh demoState "ABCDEF" "joiner" "k9" 500000 3).2.2
     demoSession rfl (by decide) rfl (by decide) (by decide)⟩

theorem rl_first_call (sid : String) (t0 : Nat) :
    checkRateLimit ⟨[], []⟩ sid none t0
      = (true, ⟨[(sid, ⟨1, t0, false, 0, 0, 0, none⟩)], []⟩) := by
  unfold checkRateLimit socketPhase
  simp [List.lookup, setKey, RATE_LIMIT_WINDOW, MAX_REQUESTS_PER_WINDOW]

theorem rl_step (sid : String) (t0 k t : Nat) (hk : k + 1 ≤ 100) (_h0 : t0 ≤ t)
    (hw : t - t0 ≤ RATE_LIMIT_WINDOW) :
    checkRateLimit ⟨[(sid, ⟨k, t0, false, 0, 0, 0, none⟩)], []⟩ sid none t
      = (true, ⟨[(sid, ⟨k + 1, t0, false, 0, 0, 0, none⟩)], []⟩) := by
  have hw2 : ¬ (t - t0 > RATE_LIMIT_WINDOW) := by omega
  have hk2 : ¬ (k + 1 > MAX_REQUESTS_PER_WINDOW) := by
    unfold MAX_REQUESTS_PER_WINDOW
    omega
  clear hk
  unfold checkRateLimit socketPhase
  simp [List.lookup, setKey, hw2, hk2]

theorem rl_block (sid : String) (t0 t : Nat) (_h0 : t0 ≤ t)
    (hw : t - t0 ≤ RATE_LIMIT_WINDOW) :
    checkRateLimit ⟨[(sid, ⟨100, t0, false, 0, 0, 0, none⟩)], []⟩ sid none t
      = (false, ⟨[(sid, ⟨101, t0, true, t + BLOCK_DURATION_INITIAL, 1, t, none⟩)], []⟩) := by
  have hw2 : ¬ (t - t0 > RATE_LIMIT_WINDOW) := by omega
  unfold checkRateLimit socketPhase
  simp [List.lookup, setKey, hw2, MAX_REQUESTS_PER_WINDOW, VIOLATION_EXPIRY,
    BLOCK_DURATION_SECOND, BLOCK_DURATION_THIRD, BLOCK_DURATION_MAX]

theorem runCalls_append (sid : String) (ip : Option String) (st : RLState)
    (xs ys : List Nat) :
    runCalls sid ip st (xs ++ ys)
      = ((runCalls sid ip st xs).1 ++ (runCalls sid ip (runCalls sid ip st xs).2 ys).1,
         (runCalls sid ip (runCalls sid ip st xs).2 ys).2) := by
  induction xs generalizing st with
  | nil => simp [runCalls]
  | cons x xs ih =>
    rw [List.cons_append, runCalls, runCalls]
    simp only []
    rw [ih]
    simp

theorem runCalls_in_window (sid : String) (t0 : Nat) :
    ∀ (ts : List Nat) (k : Nat),
    (∀ t ∈ ts, t0 ≤ t ∧ t - t0 ≤ RATE_LIMIT_WINDOW) → k + ts.length ≤ 100 →
    runCalls sid none ⟨[(sid, ⟨k, t0, false, 0, 0, 0, none⟩)], []⟩ ts
      = (List.replicate ts.length true,
         ⟨[(sid, ⟨k + ts.length, t0, false, 0, 0, 0, none⟩)], []⟩) := by
  intro ts
  induction ts with
  | nil =>
    intro k _ _
    simp [runCalls]
  | cons t ts ih =>
    intro k hb hlen
    rw [runCalls]
    rw [rl_step sid t0 k t (by simp at hlen; omega) (hb t (by simp)).1
      (hb t (by simp)).2]
    simp only []
    rw [ih (k + 1) (fun x hx => hb x (by simp [hx])) (by simp at hlen ⊢; omega)]
    simp only [List.length_cons, List.replicate]
    rw [show k + 1 + ts.length = k + (ts.length + 1) from by omega]

/-- C3: starting from no record and with no address given, every sequence of
at most 100 `checkRateLimit` calls for one connection within a single
60-second window (all timestamps within `RATE_LIMIT_WINDOW` of the first) is
fully allowed; with 100 allowed calls behind it, the 101st call in the same
window is refused, marks the connection blocked, and sets its block expiry to
`BLOCK_DURATION_INITIAL` (5 minutes) from that call. -/
theorem c3_connection_window_ceiling (sid : String) (t0 : Nat) :
    (∀ ts : List Nat, ts.length ≤ 99 →
      (∀ t ∈ ts, t0 ≤ t ∧ t - t0 ≤ RATE_LIMIT_WINDOW) →
      (runCalls sid none ⟨[], []⟩ (t0 :: ts)).1 = List.replicate (ts.length + 1) true)
    ∧ (∀ (ts : List Nat) (tLast : Nat), ts.length = 99 →
      (∀ t ∈ ts, t0 ≤ t ∧ t - t0 ≤ RATE_LIMIT_WINDOW) →
      t0 ≤ tLast → tLast - t0 ≤ RATE_LIMIT_WINDOW →
      (runCalls sid none ⟨[], []⟩ ((t0 :: ts) ++ [tLast])).1
          = List.replicate 100 true ++ [false]
      ∧ (runCalls sid none ⟨[], []⟩ ((t0 :: ts) ++ [tLast])).2.rateLimits.lookup sid
          = some ⟨101, t0, true, tLast + BLOCK_DURATION_INITIAL, 1, tLast, none⟩) := by
  constructor
  · intro ts hlen hb
    rw [runCalls, rl_first_call]
    simp only []
    rw [runCalls_in_window sid t0 ts 1 hb (by omega)]
    simp [List.replicate]
  · intro ts tLast hlen hb h0 hw
    rw [List.cons_append, runCalls, rl_first_call]
    simp only []
    rw [runCalls_append, runCalls_in_window sid t0 ts 1 hb (by omega)]
    simp only []
    rw [runCalls]
    rw [show (1 : Nat) + ts.length = 100 from by omega]
    rw [rl_block sid t0 tLast h0 hw]
    simp only [runCalls]
    constructor
    · simp [hlen, List.replicate_succ]
    · simp [List.lookup]

/-- C3 witness: 100 calls at time 0 all allowed; the 101st at time 0 refused
with a block until 300000. -/
theorem c3_connection_window_ceiling_witness :
    ((List.replicate 99 (0 : Nat)).length = 99
      ∧ (∀ t ∈ List.replicate 99 (0 : Nat), 0 ≤ t ∧ t - 0 ≤ RATE_LIMIT_WINDOW))
    ∧ (runCalls "a" none ⟨[], []⟩ ((0 :: List.replicate 99 (0 : Nat)) ++ [0])).1
        = List.replicate 100 true ++ [false]
    ∧ (runCalls "a" none ⟨[], []⟩
        ((0 :: List.replicate 99 (0 : Nat)) ++ [0])).2.rateLimits.lookup "a"
        = some ⟨101, 0, true, 0 + BLOCK_DURATION_INITIAL, 1, 0, none⟩ := by
  have h := (c3_connection_window_ceiling "a" 0).2 (List.replicate 99 0) 0
    (by simp) (by intro t ht; simp_all) (le_refl 0) (by decide)
  exact ⟨⟨by simp, by intro t ht; simp_all⟩, h.1, h.2⟩

set_option maxRecDepth 100000 in
/-- C4: refuting evaluation for the violation-reset clause.  Socket `a`
violates the ceiling at time 0 (5-minute block) and again 25 hours later (at
90000000 ms, beyond `VIOLATION_EXPIRY`).  Because `checkRateLimit` sets
`lastViolation = now` immediately before testing
`now - lastViolation > VIOLATION_EXPIRY` (rateLimiter.ts lines 157-169), the
in-call reset can never fire: the gap is always 0.  The second violation is
therefore blocked for `BLOCK_DURATION_SECOND` (15 minutes) instead of the
claimed first-tier `BLOCK_DURATION_INITIAL` (5 minutes). -/
theorem c4_violation_reset_dead_eval :
    (c4SecondBurst.rateLimits.lookup "a").map
        (fun r => (r.blocked, r.blockUntil, r.violations))
      = some (true, 90000000 + BLOCK_DURATION_SECOND, 2)
    ∧ (c4SecondBurst.rateLimits.lookup "a").map (fun r => r.blockUntil)
      ≠ some (90000000 + BLOCK_DURATION_INITIAL) := by
  refine ⟨by decide, by decide⟩

theorem lookup_mem {β : Type} {l : List (String × β)} {k : String} {v : β}
    (h : l.lookup k = some v) : (k, v) ∈ l := by
  induction l with
  | nil => simp [List.lookup] at h
  | cons p t ih =>
    rcases p with ⟨k0, v0⟩
    rw [List.lookup] at h
    by_cases hk : k = k0
    · rw [show (k == k0) = true from beq_iff_eq.2 hk] at h
      simp only [] at h
      subst hk
      rw [← Option.some.inj h]
      exact List.mem_cons_self _ _
    · rw [show (k == k0) = false from beq_eq_false_iff_ne.2 hk] at h
      exact List.mem_cons_of_mem _ (ih h)

theorem addToSet_nodup {l : List String} {x : String} (h : l.Nodup) :
    (addToSet l x).Nodup := by
  unfold addToSet
  by_cases hx : x ∈ l
  · simp only [if_pos hx]
    exact h
  · simp [hx, List.nodup_append, h]

theorem mem_addToSet_self (l : List String) (x : String) : x ∈ addToSet l x := by
  unfold addToSet
  by_cases hx : x ∈ l
  · simp only [if_pos hx]
    exact hx
  · simp [hx]

theorem mem_addToSet_elim {l : List String} {x y : String}
    (h : y ∈ addToSet l x) : y ∈ l ∨ y = x := by
  unfold addToSet at h
  by_cases hx : x ∈ l
  · rw [if_pos hx] at h
    exact Or.inl h
  · rw [if_neg hx] at h
    rcases List.mem_append.1 h with h | h
    · exact Or.inl h
    · exact Or.inr (by simpa using h)

theorem blockAllSockets_cons (rl : List (String × RateLimitInfo)) (a : String)
    (t : List String) (u : Nat) :
    blockAllSockets rl (a :: t) u = blockAllSockets (blockOneSocket u rl a) t u := by
  unfold blockAllSockets
  rw [List.foldl_cons]

theorem blockOneSocket_lookup_ne (u : Nat) (rl : List (String × RateLimitInfo))
    {a id : String} (h : id ≠ a) :
    (blockOneSocket u rl a).lookup id = rl.lookup id := by
  unfold blockOneSocket
  cases hl : rl.lookup a with
  | none => rfl
  | some ra =>
    simp only []
    exact lookup_setKey_ne _ _ h

theorem blockAll_lookup_not_mem (rl : List (String × RateLimitInfo))
    (ids : List String) (u : Nat) {id : String} (h : id ∉ ids) :
    (blockAllSockets rl ids u).lookup id = rl.lookup id := by
  induction ids generalizing rl with
  | nil => rfl
  | cons a t ih =>
    rw [blockAllSockets_cons]
    rw [ih _ (fun hm => h (List.mem_cons_of_mem _ hm))]
    exact blockOneSocket_lookup_ne u rl (fun hh => h (hh ▸ List.mem_cons_self _ _))

theorem blockAll_lookup_mem (u : Nat) :
    ∀ (ids : List String) (rl : List (String × RateLimitInfo)), ids.Nodup →
    ∀ id ∈ ids, ∀ r, rl.lookup id = some r →
    (blockAllSockets rl ids u).lookup id
      = some { r with
          blocked := true
          blockUntil := u
          violations := r.violations + 1 } := by
  intro ids
  induction ids with
  | nil =>
    intro rl _ id hid
    simp at hid
  | cons a t ih =>
    intro rl hnd id hid r hr
    have hat : a ∉ t := (List.nodup_cons.1 hnd).1
    rw [blockAllSockets_cons]
    rcases List.mem_cons.1 hid with rfl | hmem
    · rw [blockAll_lookup_not_mem _ _ _ hat]
      unfold blockOneSocket
      rw [hr]
      simp only []
      rw [lookup_setKey_self]
    · have hne : id ≠ a := fun hh => hat (hh ▸ hmem)
      apply ih _ (List.nodup_cons.1 hnd).2 id hmem r
      rw [blockOneSocket_lookup_ne u rl hne]
      exact hr

theorem ipWindowPhase_ceiling (st : RLState) (sid ip : String)
    (rInfo : RateLimitInfo) (info1 : IpRateLimitInfo) (now : Nat)
    (hwin : ¬ now - info1.lastReset > RATE_LIMIT_WINDOW)
    (hcount : info1.count + 1 > MAX_REQUESTS_PER_WINDOW_IP) :
    ipWindowPhase st sid ip rInfo info1 now
      = (false,
         ⟨blockAllSockets (setKey st.rateLimits sid rInfo) info1.socketIds
            (now + BLOCK_DURATION_INITIAL),
          setKey st.ipRateLimits ip
            { info1 with
                count := info1.count + 1
                blocked := true
                blockUntil := now + BLOCK_DURATION_INITIAL }⟩) := by
  unfold ipWindowPhase
  rw [if_neg hwin]
  simp only []
  rw [if_pos hcount]

/-- C5: whenever the per-address request count exceeds
`MAX_REQUESTS_PER_WINDOW_IP = 300` within one 60-second window (on a
well-formed state whose address record is not already blocked), the call is
refused, the address record is blocked until `now + BLOCK_DURATION_INITIAL`,
and every connection in the address's socket set (the caller included) is
simultaneously blocked until that same expiry with its violation counter
incremented by one. -/
theorem c5_address_ceiling_blocks_all (st : RLState) (sid ip : String)
    (now : Nat) (info : IpRateLimitInfo)
    (hwf : RLWellFormed st)
    (hip : st.ipRateLimits.lookup ip = some info)
    (hnodup : info.socketIds.Nodup)
    (hnb : info.blocked = false)
    (hwin : now - info.lastReset ≤ RATE_LIMIT_WINDOW)
    (hcount : MAX_REQUESTS_PER_WINDOW_IP ≤ info.count) :
    (checkRateLimit st sid (some ip) now).1 = false
    ∧ (∃ info', (checkRateLimit st sid (some ip) now).2.ipRateLimits.lookup ip
          = some info'
        ∧ info'.blocked = true ∧ info'.blockUntil = now + BLOCK_DURATION_INITIAL
        ∧ info'.socketIds = addToSet info.socketIds sid)
    ∧ (∀ id ∈ addToSet info.socketIds sid,
        ∃ r', (checkRateLimit st sid (some ip) now).2.rateLimits.lookup id
            = some r'
          ∧ r'.blocked = true ∧ r'.blockUntil = now + BLOCK_DURATION_INITIAL
          ∧ r'.violations = violationsBefore st id + 1) := by
  have hck : checkRateLimit st sid (some ip) now
      = (false,
         ⟨blockAllSockets
            (setKey st.rateLimits sid
              { (match st.rateLimits.lookup sid with
                 | some r => r
                 | none =>
                   { count := 0, lastReset := now, blocked := false,
                     blockUntil := 0, violations := 0, lastViolation := 0,
                     ipAddress := some ip }) with ipAddress := some ip })
            (addToSet info.socketIds sid) (now + BLOCK_DURATION_INITIAL),
          setKey st.ipRateLimits ip
            { info with
                count := info.count + 1
                blocked := true
                blockUntil := now + BLOCK_DURATION_INITIAL
                socketIds := addToSet info.socketIds sid }⟩) := by
    unfold checkRateLimit
    simp only [hip]
    rw [if_neg (by simp [hnb])]
    rw [ipWindowPhase_ceiling st sid ip _ _ now
      (by simp only []; unfold RATE_LIMIT_WINDOW at *; omega)
      (by simp only []; unfold MAX_REQUESTS_PER_WINDOW_IP at *; omega)]
  rw [hck]
  refine ⟨rfl, ⟨_, lookup_setKey_self _ _ _, rfl, rfl, rfl⟩, ?_⟩
  intro id hid
  have hnodup2 : (addToSet info.socketIds sid).Nodup := addToSet_nodup hnodup
  by_cases hids : id = sid
  · subst hids
    refine ⟨_, blockAll_lookup_mem _ _ _ hnodup2 id hid _ (lookup_setKey_self _ _ _),
      rfl, rfl, ?_⟩
    simp only []
    cases hl : st.rateLimits.lookup id with
    | none => simp [violationsBefore, hl]
    | some r0 => simp [violationsBefore, hl]
  · have hmem : id ∈ info.socketIds := by
      rcases mem_addToSet_elim hid with h | h
      · exact h
      · exact absurd h hids
    have hsome := hwf (ip, info) (lookup_mem hip) id hmem
    rcases Option.isSome_iff_exists.1 hsome with ⟨r0, hr0⟩
    refine ⟨_, blockAll_lookup_mem _ _ _ hnodup2 id hid r0
      (by rw [lookup_setKey_ne _ _ hids]; exact hr0), rfl, rfl, ?_⟩
    simp [violationsBefore, hr0]

/-- C5 witness: on `c5DemoState` (address `i` at count 300 with socket `a`
attributed, socket `a` holding 7 violations), a request from new socket `b`
over the ceiling blocks the address and both sockets until 301000. -/
theorem c5_address_ceiling_blocks_all_witness :
    (checkRateLimit c5DemoState "b" (some "i") 1000).1 = false
    ∧ (∃ info', (checkRateLimit c5DemoState "b" (some "i") 1000).2.ipRateLimits.lookup "i"
          = some info'
        ∧ info'.blocked = true ∧ info'.blockUntil = 1000 + BLOCK_DURATION_INITIAL
        ∧ info'.socketIds
            = addToSet (IpRateLimitInfo.mk 300 0 false 0 ["a"]).socketIds "b")
    ∧ (∀ id ∈ addToSet (IpRateLimitInfo.mk 300 0 false 0 ["a"]).socketIds "b",
        ∃ r', (checkRateLimit c5DemoState "b" (some "i") 1000).2.rateLimits.lookup id
            = some r'
          ∧ r'.blocked = true ∧ r'.blockUntil = 1000 + BLOCK_DURATION_INITIAL
          ∧ r'.violations = violationsBefore c5DemoState id + 1) :=
  c5_address_ceiling_blocks_all c5DemoState "b" "i" 1000
    (IpRateLimitInfo.mk 300 0 false 0 ["a"])
    (by unfold RLWellFormed; decide) rfl (by decide) rfl (by decide) (by decide)
